import Mathlib

/-!
Verification of the `zflate` stream transcoder (`src/main.rs`).

The program selects one of three container formats (zlib, deflate, gzip)
and a compression effort level, then streams one or more inputs through
the selected transform into a single shared output sink.

Shallow embedding conventions:
* bytes are modelled as `Nat`; a byte stream is a `List Nat`;
* the DEFLATE codec library (`flate2`) is external to the repository and
  out of the specified scope; it is modelled as an abstract `Codec`
  record exposing one encoder and one decoder per container format,
  exactly the interface the program uses;
* the output sink is modelled as the list of bytes written, returned by
  `run` (the `--output` path merely chooses where that list lands, which
  has no bearing on the byte contents);
* the file system is a partial map `String → Option (List Nat)`:
  `none` means `File::open` fails for that path;
* `clap`'s parse-time validation of the declared argument constraints
  (the `#[group(required = false, multiple = false)]` attribute on
  `CompressionLevelArgs`) is modelled by `argsValid`.
-/

/-- The three container formats of `enum Mode` in `src/main.rs`. -/
inductive Mode where
  | zlib
  | deflate
  | gzip
deriving DecidableEq, Repr

/-- `impl Default for Mode`: the default mode is `Zlib`. -/
def Mode.defaultMode : Mode := Mode.zlib

/-- `clap::ValueEnum` name resolution for `Mode`: kebab-cased variant
names plus the aliases declared with `#[value(alias = ...)]`
(`z` for zlib, `d` for deflate, `g` and `gz` for gzip). -/
def Mode.fromStr : String → Option Mode
  | "zlib" => some Mode.zlib
  | "z" => some Mode.zlib
  | "deflate" => some Mode.deflate
  | "d" => some Mode.deflate
  | "gzip" => some Mode.gzip
  | "g" => some Mode.gzip
  | "gz" => some Mode.gzip
  | _ => none

/-- The nine boolean level flags of `struct CompressionLevelArgs`
(`-1` through `-9`). -/
structure CompressionLevelArgs where
  level1 : Bool := false
  level2 : Bool := false
  level3 : Bool := false
  level4 : Bool := false
  level5 : Bool := false
  level6 : Bool := false
  level7 : Bool := false
  level8 : Bool := false
  level9 : Bool := false
deriving DecidableEq, Repr

instance : Fintype CompressionLevelArgs :=
  Fintype.ofEquiv
    (Bool × Bool × Bool × Bool × Bool × Bool × Bool × Bool × Bool)
    { toFun := fun p =>
        ⟨p.1, p.2.1, p.2.2.1, p.2.2.2.1, p.2.2.2.2.1, p.2.2.2.2.2.1,
          p.2.2.2.2.2.2.1, p.2.2.2.2.2.2.2.1, p.2.2.2.2.2.2.2.2⟩
      invFun := fun la =>
        (la.level1, la.level2, la.level3, la.level4, la.level5, la.level6,
          la.level7, la.level8, la.level9)
      left_inv := fun _ => rfl
      right_inv := fun _ => rfl }

/-- `CompressionLevelArgs::level`: the if-else chain checking
`level1` through `level9` in order; the final branch is
`Compression::default().level()`, which is 6 in `flate2`
(and the option help text documents the default as 6). -/
def CompressionLevelArgs.level (la : CompressionLevelArgs) : Nat :=
  if la.level1 then 1
  else if la.level2 then 2
  else if la.level3 then 3
  else if la.level4 then 4
  else if la.level5 then 5
  else if la.level6 then 6
  else if la.level7 then 7
  else if la.level8 then 8
  else if la.level9 then 9
  else 6

/-- Access the level flag for a given digit (0 for digits outside 1..9). -/
def CompressionLevelArgs.flag (la : CompressionLevelArgs) : Nat → Bool
  | 1 => la.level1
  | 2 => la.level2
  | 3 => la.level3
  | 4 => la.level4
  | 5 => la.level5
  | 6 => la.level6
  | 7 => la.level7
  | 8 => la.level8
  | 9 => la.level9
  | _ => false

/-- How many of the nine level flags are set. -/
def CompressionLevelArgs.numSet (la : CompressionLevelArgs) : Nat :=
  ([1, 2, 3, 4, 5, 6, 7, 8, 9].filter la.flag).length

/-- The configuration with exactly the one level flag `k` set. -/
def soloLevel (k : Nat) : CompressionLevelArgs :=
  { level1 := k = 1, level2 := k = 2, level3 := k = 3
    level4 := k = 4, level5 := k = 5, level6 := k = 6
    level7 := k = 7, level8 := k = 8, level9 := k = 9 }

/-- The abstract codec library interface used by the program: one
encoder (taking the effort level) and one decoder per container format.
This stands for the `flate2` encoder/decoder types, which are outside
the repository. Decoding is fallible (malformed input). -/
structure Codec where
  zlibEncode : Nat → List Nat → List Nat
  deflateEncode : Nat → List Nat → List Nat
  gzipEncode : Nat → List Nat → List Nat
  zlibDecode : List Nat → Except String (List Nat)
  deflateDecode : List Nat → Except String (List Nat)
  gzipDecode : List Nat → Except String (List Nat)

/-- `Mode::compress`: dispatch to the encoder of the selected format at
the given effort level (`io::copy` through the encoding reader). -/
def Mode.compress (m : Mode) (c : Codec) (level : Nat) (input : List Nat) :
    List Nat :=
  match m with
  | Mode.zlib => c.zlibEncode level input
  | Mode.deflate => c.deflateEncode level input
  | Mode.gzip => c.gzipEncode level input

/-- `Mode::decompress`: dispatch to the decoder of the selected format
(`io::copy` through the decoding reader); takes no level. -/
def Mode.decompress (m : Mode) (c : Codec) (input : List Nat) :
    Except String (List Nat) :=
  match m with
  | Mode.zlib => c.zlibDecode input
  | Mode.deflate => c.deflateDecode input
  | Mode.gzip => c.gzipDecode input

/-- The parsed command line, `struct Args` (the `--output` path is
omitted: the sink's byte contents, which `run` returns here, do not
depend on it). `files = none` models no positional arguments. -/
structure Args where
  decompress : Bool := false
  mode : Mode := Mode.zlib
  comp_level_args : CompressionLevelArgs := {}
  files : Option (List String) := none

/-- `clap` parse-time validation of the constraints declared in the
source: `CompressionLevelArgs` is a `#[group(required = false,
multiple = false)]`, so at most one of the nine level flags may appear.
No other inter-argument constraint is declared (in particular none
between `--decompress` and the level flags). -/
def argsValid (a : Args) : Bool :=
  a.comp_level_args.numSet ≤ 1

/-- Outcome of `run`: the bytes written to the output sink, and on
failure also the error message (bytes already written stay written). -/
inductive RunResult where
  | ok (written : List Nat)
  | err (written : List Nat) (msg : String)
deriving DecidableEq, Repr

/-- The `transcode` closure in `run`: decompress ignores the level,
compress uses the level resolved once from the flags. -/
def transcode (c : Codec) (a : Args) (input : List Nat) :
    Except String (List Nat) :=
  if a.decompress then a.mode.decompress c input
  else Except.ok (a.mode.compress c a.comp_level_args.level input)

/-- The `for path in files` loop in `run`: open each input in order
(failing fast with the offending path if `File::open` fails), transcode
it into the shared sink, then move to the next. -/
def processFiles (c : Codec) (a : Args) (fs : String → Option (List Nat)) :
    List String → RunResult
  | [] => RunResult.ok []
  | p :: rest =>
    match fs p with
    | none => RunResult.err [] ("failed to open input file " ++ p)
    | some data =>
      match transcode c a data with
      | Except.error e => RunResult.err [] e
      | Except.ok out =>
        match processFiles c a fs rest with
        | RunResult.ok w => RunResult.ok (out ++ w)
        | RunResult.err w m => RunResult.err (out ++ w) m

/-- `fn run`: with positional files, loop over them; otherwise transcode
standard input once. -/
def run (c : Codec) (a : Args) (fs : String → Option (List Nat))
    (stdin : List Nat) : RunResult :=
  match a.files with
  | some files => processFiles c a fs files
  | none =>
    match transcode c a stdin with
    | Except.ok out => RunResult.ok out
    | Except.error e => RunResult.err [] e

/-- `fn main`: exit status 0 on success, 1 on any `run` error. -/
def exitCode : RunResult → Nat
  | RunResult.ok _ => 0
  | RunResult.err _ _ => 1

/-- Whole-process outcome: `clap` rejects an invalid argument set with a
usage error before `run` ever executes (no file is touched); otherwise
the process performs `run`. -/
inductive MainOutcome where
  | usageError
  | ran (r : RunResult)
deriving DecidableEq, Repr

/-- Process model: parse-time validation, then `run`. -/
def mainModel (c : Codec) (a : Args) (fs : String → Option (List Nat))
    (stdin : List Nat) : MainOutcome :=
  if argsValid a then MainOutcome.ran (run c a fs stdin)
  else MainOutcome.usageError

/-- A trivial codec satisfying the round-trip contract, used to
instantiate theorems at concrete inputs. -/
def idCodec : Codec :=
  { zlibEncode := fun _ x => x
    deflateEncode := fun _ x => x
    gzipEncode := fun _ x => x
    zlibDecode := fun x => Except.ok x
    deflateDecode := fun x => Except.ok x
    gzipDecode := fun x => Except.ok x }

/-- Ascending first-set reading of the level flags (the spec-side
characterization of the resolver, for comparison with
`CompressionLevelArgs.level`): scan digits 1 through 9 in order and
return the first whose flag is set, defaulting to 6. -/
def levelSpecFirstSetAscending (la : CompressionLevelArgs) : Nat :=
  (([1, 2, 3, 4, 5, 6, 7, 8, 9].find? la.flag).getD 6)

lemma transcode_files_irrel (c : Codec) (d : Bool) (m : Mode)
    (la : CompressionLevelArgs) (f1 f2 : Option (List String)) (x : List Nat) :
    transcode c ⟨d, m, la, f1⟩ x = transcode c ⟨d, m, la, f2⟩ x := rfl

lemma transcode_decompress_level_irrel (c : Codec) (m : Mode)
    (la1 la2 : CompressionLevelArgs) (f : Option (List String)) (x : List Nat) :
    transcode c ⟨true, m, la1, f⟩ x = transcode c ⟨true, m, la2, f⟩ x := rfl

lemma transcode_compress_eq (c : Codec) (m : Mode) (la : CompressionLevelArgs)
    (f : Option (List String)) (x : List Nat) :
    transcode c ⟨false, m, la, f⟩ x = Except.ok (m.compress c la.level x) := rfl

lemma transcode_level_congr (c : Codec) (d : Bool) (m : Mode)
    (la1 la2 : CompressionLevelArgs) (f : Option (List String))
    (h : la1.level = la2.level) (x : List Nat) :
    transcode c ⟨d, m, la1, f⟩ x = transcode c ⟨d, m, la2, f⟩ x := by
  simp only [transcode, h]

lemma processFiles_congr (c : Codec) (a1 a2 : Args)
    (fs : String → Option (List Nat))
    (h : ∀ x, transcode c a1 x = transcode c a2 x) :
    ∀ l, processFiles c a1 fs l = processFiles c a2 fs l := by
  intro l
  induction l with
  | nil => rfl
  | cons p rest ih =>
    unfold processFiles
    cases fs p with
    | none => rfl
    | some data => simp only [h data, ih]

lemma run_congr (c : Codec) (d1 d2 : Bool) (m1 m2 : Mode)
    (la1 la2 : CompressionLevelArgs) (files : Option (List String))
    (fs : String → Option (List Nat)) (stdin : List Nat)
    (h : ∀ x, transcode c ⟨d1, m1, la1, files⟩ x = transcode c ⟨d2, m2, la2, files⟩ x) :
    run c ⟨d1, m1, la1, files⟩ fs stdin = run c ⟨d2, m2, la2, files⟩ fs stdin := by
  cases files with
  | none => unfold run; rw [h stdin]
  | some l => unfold run; exact processFiles_congr c _ _ fs h l

set_option maxRecDepth 4000

/-- C3: with no level flag set the resolved level is the documented
default 6; with exactly one flag `-k` set the resolved level is `k`;
consequently compressing with no level flag produces byte-identical
output to compressing with `-6` given explicitly. -/
theorem effort_level_resolution :
    (∀ la : CompressionLevelArgs, la.numSet = 0 → la.level = 6) ∧
    (∀ la : CompressionLevelArgs, ∀ k, k < 10 → la.numSet = 1 →
      la.flag k = true → la.level = k) ∧
    (∀ (c : Codec) (m : Mode) (files : Option (List String))
      (fs : String → Option (List Nat)) (stdin : List Nat)
      (la : CompressionLevelArgs), la.numSet = 0 →
      run c ⟨false, m, la, files⟩ fs stdin =
        run c ⟨false, m, soloLevel 6, files⟩ fs stdin) := by
  have hdef : ∀ la : CompressionLevelArgs, la.numSet = 0 → la.level = 6 := by
    decide
  refine ⟨hdef, by decide, ?_⟩
  intro c m files fs stdin la h
  apply run_congr
  intro x
  apply transcode_level_congr
  rw [hdef la h]
  decide

/-- Witness for C3 at concrete configurations. -/
theorem effort_level_resolution_witness :
    ({} : CompressionLevelArgs).level = 6 ∧
    (soloLevel 4).level = 4 ∧
    run idCodec ⟨false, Mode.zlib, {}, none⟩ (fun _ => none) [9] =
      run idCodec ⟨false, Mode.zlib, soloLevel 6, none⟩ (fun _ => none) [9] :=
  ⟨effort_level_resolution.1 {} (by decide),
   effort_level_resolution.2.1 (soloLevel 4) 4 (by decide) (by decide) (by decide),
   effort_level_resolution.2.2 idCodec Mode.zlib none (fun _ => none) [9] {}
     (by decide)⟩

/-- C10: the level resolver checks flags 1 through 9 in ascending order
and returns the first one set (6 when none is set), so with both `-1`
and `-9` set it resolves to 1. -/
theorem level_resolver_first_set_ascending :
    (∀ la : CompressionLevelArgs, la.level = levelSpecFirstSetAscending la) ∧
    ({ level1 := true, level9 := true } : CompressionLevelArgs).level = 1 :=
  ⟨by decide, by decide⟩

/-- C5: an invocation setting two or more level flags is rejected at
configuration-parse time as a usage error, before any file is touched
(the outcome is independent of the file system and input contents). -/
theorem multiple_level_flags_rejected (c : Codec) (a : Args)
    (fs : String → Option (List Nat)) (stdin : List Nat)
    (h : 2 ≤ a.comp_level_args.numSet) :
    mainModel c a fs stdin = MainOutcome.usageError := by
  have hv : argsValid a = false := by
    unfold argsValid
    simp only [decide_eq_false_iff_not]
    omega
  unfold mainModel
  rw [hv]
  rfl

/-- Witness for C5: `-1` and `-9` together yield a usage error. -/
theorem multiple_level_flags_rejected_witness :
    mainModel idCodec
      ⟨false, Mode.zlib, { level1 := true, level9 := true }, none⟩
      (fun _ => none) [] = MainOutcome.usageError :=
  multiple_level_flags_rejected idCodec
    ⟨false, Mode.zlib, { level1 := true, level9 := true }, none⟩
    (fun _ => none) [] (by decide)

/-- C7: with decompress set, the run's outcome is identical for any two
level-flag configurations — the level affects only compression. -/
theorem decompress_level_independent (c : Codec) (m : Mode)
    (files : Option (List String)) (fs : String → Option (List Nat))
    (stdin : List Nat) (la1 la2 : CompressionLevelArgs) :
    run c ⟨true, m, la1, files⟩ fs stdin =
      run c ⟨true, m, la2, files⟩ fs stdin :=
  run_congr c true true m m la1 la2 files fs stdin
    (fun x => transcode_decompress_level_irrel c m la1 la2 files x)

/-- C8: with no named inputs, the run is exactly one application of the
selected transform to the implicit input stream, and the outcome never
consults the file system (no named file is opened). -/
theorem empty_input_list_reads_stdin (c : Codec) (a : Args)
    (fs1 fs2 : String → Option (List Nat)) (stdin : List Nat)
    (hfiles : a.files = none) :
    (∀ out, transcode c a stdin = Except.ok out →
      run c a fs1 stdin = RunResult.ok out) ∧
    (∀ e, transcode c a stdin = Except.error e →
      run c a fs1 stdin = RunResult.err [] e) ∧
    run c a fs1 stdin = run c a fs2 stdin := by
  unfold run
  rw [hfiles]
  exact ⟨fun out h => by rw [h], fun e h => by rw [h], rfl⟩

/-- Witness for C8 at a concrete configuration. -/
theorem empty_input_list_reads_stdin_witness :
    run idCodec ⟨false, Mode.gzip, {}, none⟩ (fun _ => none) [4, 2] =
      RunResult.ok [4, 2] :=
  (empty_input_list_reads_stdin idCodec ⟨false, Mode.gzip, {}, none⟩
    (fun _ => none) (fun _ => some []) [4, 2] rfl).1 [4, 2] rfl

/-- C9: the default mode is zlib, and the textual aliases map
many-to-one onto the three canonical modes (`z` to zlib, `d` to
deflate, `g` and `gz` to gzip). -/
theorem mode_default_and_aliases :
    Mode.defaultMode = Mode.zlib ∧
    Mode.fromStr "z" = some Mode.zlib ∧
    Mode.fromStr "d" = some Mode.deflate ∧
    Mode.fromStr "g" = some Mode.gzip ∧
    Mode.fromStr "gz" = some Mode.gzip ∧
    Mode.fromStr "zlib" = some Mode.zlib ∧
    Mode.fromStr "deflate" = some Mode.deflate ∧
    Mode.fromStr "gzip" = some Mode.gzip := by
  decide

lemma processFiles_all_ok (c : Codec) (a : Args)
    (fs : String → Option (List Nat)) (data out : String → List Nat) :
    ∀ files, (∀ p ∈ files, fs p = some (data p)) →
      (∀ p ∈ files, transcode c a (data p) = Except.ok (out p)) →
      processFiles c a fs files = RunResult.ok ((files.map out).flatten) := by
  intro files
  induction files with
  | nil => intro _ _; rfl
  | cons p rest ih =>
    intro hfs htr
    have h1 : fs p = some (data p) := hfs p (List.mem_cons_self p rest)
    have h2 : transcode c a (data p) = Except.ok (out p) :=
      htr p (List.mem_cons_self p rest)
    have ih2 := ih (fun q hq => hfs q (List.mem_cons_of_mem p hq))
      (fun q hq => htr q (List.mem_cons_of_mem p hq))
    simp only [processFiles, h1, h2, ih2, List.map_cons, List.flatten_cons]

lemma processFiles_failfast (c : Codec) (a : Args)
    (fs : String → Option (List Nat)) (data out : String → List Nat)
    (bad : String) (post : List String) (hbad : fs bad = none) :
    ∀ pre, (∀ p ∈ pre, fs p = some (data p)) →
      (∀ p ∈ pre, transcode c a (data p) = Except.ok (out p)) →
      processFiles c a fs (pre ++ bad :: post) =
        RunResult.err ((pre.map out).flatten)
          ("failed to open input file " ++ bad) := by
  intro pre
  induction pre with
  | nil =>
    intro _ _
    simp only [List.nil_append, processFiles, hbad, List.map_nil,
      List.flatten_nil]
  | cons p rest ih =>
    intro hfs htr
    have h1 : fs p = some (data p) := hfs p (List.mem_cons_self p rest)
    have h2 : transcode c a (data p) = Except.ok (out p) :=
      htr p (List.mem_cons_self p rest)
    have ih2 := ih (fun q hq => hfs q (List.mem_cons_of_mem p hq))
      (fun q hq => htr q (List.mem_cons_of_mem p hq))
    simp only [List.cons_append, processFiles, List.append_eq, h1, h2, ih2,
      List.map_cons, List.flatten_cons]

/-- C1: with a non-empty input list that all opens successfully, the
bytes written are exactly the concatenation, in list order, of the
selected transform applied to each input individually (N independently
framed members, not one member over the concatenated inputs). -/
theorem multi_input_concatenation (c : Codec) (m : Mode)
    (la : CompressionLevelArgs) (files : List String)
    (fs : String → Option (List Nat)) (data : String → List Nat)
    (stdin : List Nat)
    (hfs : ∀ p ∈ files, fs p = some (data p)) :
    run c ⟨false, m, la, some files⟩ fs stdin =
      RunResult.ok
        ((files.map fun p => m.compress c la.level (data p)).flatten) :=
  processFiles_all_ok c ⟨false, m, la, some files⟩ fs data
    (fun p => m.compress c la.level (data p)) files hfs
    (fun p _ => transcode_compress_eq c m la (some files) (data p))

/-- Witness for C1 at inputs `a` ↦ `[1]` and `b` ↦ `[2]`. -/
theorem multi_input_concatenation_witness :
    run idCodec ⟨false, Mode.zlib, {}, some ["a", "b"]⟩
      (fun p => if p = "a" then some [1] else
        if p = "b" then some [2] else none) [] = RunResult.ok [1, 2] :=
  (multi_input_concatenation idCodec Mode.zlib {} ["a", "b"]
    (fun p => if p = "a" then some [1] else
      if p = "b" then some [2] else none)
    (fun p => if p = "a" then [1] else [2]) [] (by decide)).trans (by decide)

/-- C2: if opening the input at some position fails, the run aborts
with exit code 1 and the error naming that path; the bytes already
written for the earlier inputs stay in the sink unchanged, and no later
input is opened or transcoded (the outcome is the same under any file
system agreeing on the earlier inputs and the failing one). -/
theorem failfast_on_open_error (c : Codec) (d : Bool) (m : Mode)
    (la : CompressionLevelArgs) (pre post : List String) (bad : String)
    (fs fs2 : String → Option (List Nat)) (data out : String → List Nat)
    (stdin : List Nat)
    (hfs : ∀ p ∈ pre, fs p = some (data p))
    (htr : ∀ p ∈ pre,
      transcode c ⟨d, m, la, some (pre ++ bad :: post)⟩ (data p) =
        Except.ok (out p))
    (hbad : fs bad = none)
    (hfs2 : ∀ p ∈ pre, fs2 p = some (data p))
    (hbad2 : fs2 bad = none) :
    run c ⟨d, m, la, some (pre ++ bad :: post)⟩ fs stdin =
      RunResult.err ((pre.map out).flatten)
        ("failed to open input file " ++ bad) ∧
    exitCode (run c ⟨d, m, la, some (pre ++ bad :: post)⟩ fs stdin) = 1 ∧
    run c ⟨d, m, la, some (pre ++ bad :: post)⟩ fs2 stdin =
      run c ⟨d, m, la, some (pre ++ bad :: post)⟩ fs stdin := by
  have hA : run c ⟨d, m, la, some (pre ++ bad :: post)⟩ fs stdin =
      RunResult.err ((pre.map out).flatten)
        ("failed to open input file " ++ bad) :=
    processFiles_failfast c ⟨d, m, la, some (pre ++ bad :: post)⟩ fs data out
      bad post hbad pre hfs htr
  have hB : run c ⟨d, m, la, some (pre ++ bad :: post)⟩ fs2 stdin =
      RunResult.err ((pre.map out).flatten)
        ("failed to open input file " ++ bad) :=
    processFiles_failfast c ⟨d, m, la, some (pre ++ bad :: post)⟩ fs2 data out
      bad post hbad2 pre hfs2 htr
  exact ⟨hA, by rw [hA]; rfl, hB.trans hA.symm⟩

/-- Witness for C2: input list `[a, x, b]` where `x` cannot be opened:
the run aborts naming `x`, keeping `a`'s output in the sink. -/
theorem failfast_on_open_error_witness :
    run idCodec ⟨false, Mode.zlib, {}, some (["a"] ++ "x" :: ["b"])⟩
      (fun p => if p = "a" then some [1] else none) [] =
      RunResult.err [1] ("failed to open input file " ++ "x") :=
  ((failfast_on_open_error idCodec false Mode.zlib {} ["a"] ["b"] "x"
    (fun p => if p = "a" then some [1] else none)
    (fun p => if p = "a" then some [1] else none)
    (fun _ => [1]) (fun _ => [1]) []
    (by decide) (fun p _ => rfl) (by decide) (by decide) (by decide)).1).trans
    (by decide)

/-- Counterexample to C4: `-d -3` (decompress together with level flag
3) is accepted by configuration validation, the run proceeds, and the
process exits 0 — it is not a configuration error. -/
theorem level_with_decompress_counterexample :
    argsValid ⟨true, Mode.zlib, soloLevel 3, none⟩ = true ∧
    mainModel idCodec ⟨true, Mode.zlib, soloLevel 3, none⟩
      (fun _ => none) [7] = MainOutcome.ran (RunResult.ok [7]) ∧
    exitCode (RunResult.ok [7]) = 0 := by decide

/-- C4 (amended): supplying an effort-level flag together with
decompress mode is accepted (the level flags conflict only with each
other, not with decompress); the level is ignored during decompression,
so the process behaves identically to decompress with no level flag. -/
theorem level_with_decompress_accepted_and_ignored (c : Codec) (m : Mode)
    (files : Option (List String)) (fs : String → Option (List Nat))
    (stdin : List Nat) (k : Nat) (h1 : 1 ≤ k) (h9 : k ≤ 9) :
    argsValid ⟨true, m, soloLevel k, files⟩ = true ∧
    mainModel c ⟨true, m, soloLevel k, files⟩ fs stdin =
      mainModel c ⟨true, m, {}, files⟩ fs stdin := by
  have hk : k < 10 := by omega
  have hone : (soloLevel k).numSet = 1 :=
    (by decide : ∀ j, j < 10 → 1 ≤ j → (soloLevel j).numSet = 1) k hk h1
  have hv : argsValid ⟨true, m, soloLevel k, files⟩ = true := by
    unfold argsValid
    rw [hone]
    decide
  have hv2 : argsValid ⟨true, m, {}, files⟩ = true := rfl
  refine ⟨hv, ?_⟩
  unfold mainModel
  rw [hv, hv2]
  simp only [if_true]
  exact congrArg MainOutcome.ran
    (run_congr c true true m m (soloLevel k) {} files fs stdin
      (fun x => transcode_decompress_level_irrel c m (soloLevel k) {} files x))

/-- Witness for the amended C4 at `-d -3`. -/
theorem level_with_decompress_accepted_and_ignored_witness :
    mainModel idCodec ⟨true, Mode.deflate, soloLevel 3, none⟩
      (fun _ => none) [5] =
      mainModel idCodec ⟨true, Mode.deflate, {}, none⟩ (fun _ => none) [5] :=
  (level_with_decompress_accepted_and_ignored idCodec Mode.deflate none
    (fun _ => none) [5] 3 (by decide) (by decide)).2

/-- C6: for each format and any effort level flag `-k` (k in 1..=9),
decompressing the bytes produced by compressing any input — the empty
and one-byte inputs included — reproduces the input exactly, provided
the external codec's decoder inverts its encoder for each format, which
is the codec contract the specification assumes of the opaque codec
library. -/
theorem roundtrip_all_formats_levels (c : Codec)
    (hz : ∀ l x, c.zlibDecode (c.zlibEncode l x) = Except.ok x)
    (hd : ∀ l x, c.deflateDecode (c.deflateEncode l x) = Except.ok x)
    (hg : ∀ l x, c.gzipDecode (c.gzipEncode l x) = Except.ok x)
    (m : Mode) (lvl : Nat) (h1 : 1 ≤ lvl) (h9 : lvl ≤ 9)
    (la2 : CompressionLevelArgs)
    (fs fs2 : String → Option (List Nat)) (x w : List Nat)
    (hc : run c ⟨false, m, soloLevel lvl, none⟩ fs x = RunResult.ok w) :
    run c ⟨true, m, la2, none⟩ fs2 w = RunResult.ok x := by
  have h0 : RunResult.ok (m.compress c (soloLevel lvl).level x) =
      RunResult.ok w := hc
  obtain rfl : m.compress c (soloLevel lvl).level x = w := by
    injection h0
  have hdec : m.decompress c (m.compress c (soloLevel lvl).level x) =
      Except.ok x := by
    cases m with
    | zlib => exact hz _ x
    | deflate => exact hd _ x
    | gzip => exact hg _ x
  have ht : transcode c ⟨true, m, la2, none⟩
      (m.compress c (soloLevel lvl).level x) = Except.ok x := hdec
  show (match transcode c ⟨true, m, la2, none⟩
      (m.compress c (soloLevel lvl).level x) with
    | Except.ok out => RunResult.ok out
    | Except.error e => RunResult.err [] e) = RunResult.ok x
  rw [ht]

/-- Witness for C6 with a concrete codec at the empty input. -/
theorem roundtrip_all_formats_levels_witness :
    run idCodec ⟨true, Mode.gzip, {}, none⟩ (fun _ => none) [] =
      RunResult.ok [] :=
  roundtrip_all_formats_levels idCodec (fun _ _ => rfl) (fun _ _ => rfl)
    (fun _ _ => rfl) Mode.gzip 3 (by decide) (by decide) {} (fun _ => none)
    (fun _ => none) [] [] rfl
